import Mathlib

/-!
Verification of the waltrac message codec (firmware/waltrac/Messages.cpp /
Messages.h) against its natural-language specification.

The codec is shallowly embedded: byte buffers are `List Nat` (each entry a
byte value `< 256`), C++ `double` coordinate arithmetic is idealised as exact
rational arithmetic (`ℚ`) with the C library's round-half-away-from-zero, and
the external mbedTLS HMAC-SHA-256 primitive is a parameter
`mac : List Nat → List Nat → List Nat` (key bytes → message bytes → 32-byte
digest), since it is a library the repository calls, not code of the
repository.  C++ exceptions become `Except Err`.
-/

namespace Messages

/-- Error conditions raised by the codec.  The C++ throws
`std::runtime_error` with a message in every case; the constructors follow
the spec's taxonomy (FormatError at decode, FieldError at encode, and the
null-key rejection in `verify`) while keeping the exact source messages. -/
inductive Err where
  | formatError : String → Err
  | fieldError : String → Err
  | keyError : String → Err
deriving DecidableEq

instance {ε α : Type} [DecidableEq ε] [DecidableEq α] : DecidableEq (Except ε α) := fun a b =>
  match a, b with
  | .error e, .error e' =>
    if h : e = e' then isTrue (congrArg Except.error h)
    else isFalse (fun he => h (Except.error.inj he))
  | .ok x, .ok y =>
    if h : x = y then isTrue (congrArg Except.ok h)
    else isFalse (fun he => h (Except.ok.inj he))
  | .error _, .ok _ => isFalse (fun he => Except.noConfusion he)
  | .ok _, .error _ => isFalse (fun he => Except.noConfusion he)

/-- `push_be_i32` / `push_be_u32` (Messages.cpp): the four big-endian bytes
of the two's-complement image of `v`, most significant first.  Shifting and
masking a 32-bit value is division and remainder on its value mod `2^32`. -/
def be_i32 (v : ℤ) : List Nat :=
  let u := (v % 4294967296).toNat
  [u / 16777216 % 256, u / 65536 % 256, u / 256 % 256, u % 256]

/-- `read_be_i32` (Messages.cpp): reassemble four bytes, most significant
first, into the signed 32-bit value they represent in two's complement. -/
def as_i32 (b0 b1 b2 b3 : Nat) : ℤ :=
  let u := (b0 * 16777216 + b1 * 65536 + b2 * 256 + b3) % 4294967296
  if u < 2147483648 then (u : ℤ) else (u : ℤ) - 4294967296

/-- C `round` (as used in `Position::_serialize_fields`): round half away
from zero, on the idealised rational value. -/
def c_round (q : ℚ) : ℤ :=
  if q < 0 then -⌊-q + 1/2⌋ else ⌊q + 1/2⌋

/-- `Position::SCALE = 1e7` (Messages.h). -/
def SCALE : ℚ := 10000000

/-- The `Messages::Position` class (Messages.h): header, interval,
confidence, satellites (each a `uint8_t`), a 6-byte device id, latitude and
longitude (`double`, idealised as `ℚ`), a name string (byte list), and the
16-byte stored tag `hmac_` inherited from `Payload` (zero-initialised). -/
structure Position where
  header : Nat := 0
  interval : Nat := 0
  confidence : Nat := 0
  satellites : Nat := 0
  device : List Nat := List.replicate 6 0
  latitude : ℚ := 0
  longitude : ℚ := 0
  name : List Nat := []
  hmac : List Nat := List.replicate 16 0
deriving DecidableEq

/-- `Position::_serialize_fields` (Messages.cpp lines 160-197): header,
interval, confidence, satellites, 6 device bytes, big-endian `round(lat*1e7)`
and `round(lon*1e7)` as int32, one name-length byte, then the name bytes.
Fails (C++ throw) when the name exceeds 255 bytes.  The `% 256` mirrors the
`uint8_t` casts of `push_u8`; the 32-bit casts of the rounded coordinates are
the two's-complement reduction inside `be_i32`. -/
def Position.serialize_fields (p : Position) : Except Err (List Nat) :=
  if p.name.length > 255 then
    .error (.fieldError "name too long; max 255 bytes")
  else
    .ok ([p.header % 256, p.interval % 256, p.confidence % 256, p.satellites % 256]
      ++ p.device
      ++ be_i32 (c_round (p.latitude * SCALE))
      ++ be_i32 (c_round (p.longitude * SCALE))
      ++ [p.name.length % 256] ++ p.name)

/-- `Payload::serialize` specialised to `Position` (Messages.cpp lines
76-93): serialize the fields, then append sixteen zero bytes when no key is
given, or compute the truncated HMAC, store it in `hmac_` and append it when
a key is given.  Returns the updated object together with the buffer, since
the C++ method mutates `this->hmac_` in the keyed case. -/
def Position.serialize (mac : List Nat → List Nat → List Nat)
    (p : Position) (key : Option (List Nat)) :
    Except Err (Position × List Nat) :=
  match p.serialize_fields with
  | .error e => .error e
  | .ok fields =>
    match key with
    | none => .ok (p, fields ++ List.replicate 16 0)
    | some k =>
      let sig := (mac k fields).take 16
      .ok ({ p with hmac := sig }, fields ++ sig)

/-- `Payload::verify` specialised to `Position` (Messages.cpp lines 95-107):
reject a null key, recompute the truncated HMAC over the serialized fields
and compare it with the stored tag.  The method is `const` and writes no
member, so the embedding returns the receiver unchanged alongside the
boolean. -/
def Position.verify (mac : List Nat → List Nat → List Nat)
    (p : Position) (key : Option (List Nat)) :
    Except Err (Bool × Position) :=
  match key with
  | none => .error (.keyError "key is null")
  | some k =>
    match p.serialize_fields with
    | .error e => .error e
    | .ok fields => .ok (decide ((mac k fields).take 16 = p.hmac), p)

/-- `Position::init` (Messages.cpp lines 111-158).  Minimum size
1+1+1+1+6+4+4+1+16 = 35 bytes; then the fixed fields are read at offsets
0..17, the name length at offset 18, and the buffer must be exactly long
enough for the name plus the 16-byte tag, with nothing trailing.  The final
`match` pattern is unreachable because the guard already ensures at least 35
elements. -/
def Position.init (data : List Nat) : Except Err Position :=
  if data.length < 35 then
    .error (.formatError "data too short for Position")
  else
    match data with
    | b0 :: b1 :: b2 :: b3 :: d0 :: d1 :: d2 :: d3 :: d4 :: d5 ::
      l0 :: l1 :: l2 :: l3 :: m0 :: m1 :: m2 :: m3 :: nl :: rest =>
      if rest.length < nl + 16 then
        .error (.formatError "data too short for name length and hmac")
      else if rest.length ≠ nl + 16 then
        .error (.formatError "extra or missing bytes after parsing hmac")
      else
        .ok { header := b0, interval := b1, confidence := b2, satellites := b3,
              device := [d0, d1, d2, d3, d4, d5],
              latitude := (as_i32 l0 l1 l2 l3 : ℚ) / SCALE,
              longitude := (as_i32 m0 m1 m2 m3 : ℚ) / SCALE,
              name := rest.take nl,
              hmac := (rest.drop nl).take 16 }
    | _ => .error (.formatError "data too short for Position")

/-- The `Messages::Command` class (Messages.h): a header byte, a
variable-length argument (byte list), and the inherited 16-byte stored tag. -/
structure Command where
  header : Nat := 0
  arg : List Nat := []
  hmac : List Nat := List.replicate 16 0
deriving DecidableEq

/-- `Command::_serialize_fields` (Messages.cpp lines 257-270): header byte,
argument length byte, argument bytes; fails when the argument exceeds 255
bytes. -/
def Command.serialize_fields (c : Command) : Except Err (List Nat) :=
  if c.arg.length > 255 then
    .error (.fieldError "arg too long; max 255 bytes")
  else
    .ok ([c.header % 256, c.arg.length % 256] ++ c.arg)

/-- `Payload::serialize` specialised to `Command`. -/
def Command.serialize (mac : List Nat → List Nat → List Nat)
    (c : Command) (key : Option (List Nat)) :
    Except Err (Command × List Nat) :=
  match c.serialize_fields with
  | .error e => .error e
  | .ok fields =>
    match key with
    | none => .ok (c, fields ++ List.replicate 16 0)
    | some k =>
      let sig := (mac k fields).take 16
      .ok ({ c with hmac := sig }, fields ++ sig)

/-- `Payload::verify` specialised to `Command`. -/
def Command.verify (mac : List Nat → List Nat → List Nat)
    (c : Command) (key : Option (List Nat)) :
    Except Err (Bool × Command) :=
  match key with
  | none => .error (.keyError "key is null")
  | some k =>
    match c.serialize_fields with
    | .error e => .error e
    | .ok fields => .ok (decide ((mac k fields).take 16 = c.hmac), c)

/-- `Command::init` (Messages.cpp lines 224-255).  Only the 18-byte minimum
is enforced with a throw; the overrun and trailing-byte checks in the source
are commented out and replaced by `printf`, after which parsing continues
and a `Command` is returned.  An argument length reaching past the end of
the buffer makes the C++ read out of bounds (undefined behaviour); the
embedding truncates such reads via `take`. -/
def Command.init (data : List Nat) : Except Err Command :=
  if data.length < 18 then
    .error (.formatError "data too short for Command")
  else
    match data with
    | b0 :: al :: rest =>
      .ok { header := b0, arg := rest.take al, hmac := (rest.drop al).take 16 }
    | _ => .error (.formatError "data too short for Command")

end Messages

namespace Messages

/-! ### Helper lemmas -/

lemma exists_six (l : List Nat) (h : l.length = 6) :
    ∃ a b c d e f, l = [a, b, c, d, e, f] := by
  rcases l with _ | ⟨a, l⟩; · simp at h
  rcases l with _ | ⟨b, l⟩; · simp at h
  rcases l with _ | ⟨c, l⟩; · simp at h
  rcases l with _ | ⟨d, l⟩; · simp at h
  rcases l with _ | ⟨e, l⟩; · simp at h
  rcases l with _ | ⟨f, l⟩; · simp at h
  rcases l with _ | ⟨g, l⟩
  · exact ⟨a, b, c, d, e, f, rfl⟩
  · simp at h

lemma as_i32_be (v : ℤ) (h1 : -2147483648 ≤ v) (h2 : v < 2147483648) :
    as_i32 ((v % 4294967296).toNat / 16777216 % 256) ((v % 4294967296).toNat / 65536 % 256)
      ((v % 4294967296).toNat / 256 % 256) ((v % 4294967296).toNat % 256) = v := by
  unfold as_i32
  simp only []
  split <;> omega

lemma c_round_intCast (n : ℤ) : c_round (n : ℚ) = n := by
  unfold c_round
  split
  · rw [show -(n : ℚ) = ((-n : ℤ) : ℚ) by push_cast; ring]
    rw [Int.floor_int_add]
    norm_num
  · rw [Int.floor_int_add]
    norm_num

lemma Position.serialize_fields_ok (p : Position) (hname : p.name.length ≤ 255) :
    p.serialize_fields = .ok
      ([p.header % 256, p.interval % 256, p.confidence % 256, p.satellites % 256]
        ++ p.device
        ++ be_i32 (c_round (p.latitude * SCALE))
        ++ be_i32 (c_round (p.longitude * SCALE))
        ++ [p.name.length % 256] ++ p.name) := by
  unfold Position.serialize_fields
  rw [if_neg (by omega)]

lemma Position.init_cons (b0 b1 b2 b3 d0 d1 d2 d3 d4 d5 l0 l1 l2 l3 m0 m1 m2 m3 nl : Nat)
    (rest : List Nat) (hr : rest.length = nl + 16) :
    Position.init (b0 :: b1 :: b2 :: b3 :: d0 :: d1 :: d2 :: d3 :: d4 :: d5 ::
      l0 :: l1 :: l2 :: l3 :: m0 :: m1 :: m2 :: m3 :: nl :: rest) =
    .ok { header := b0, interval := b1, confidence := b2, satellites := b3,
          device := [d0, d1, d2, d3, d4, d5],
          latitude := (as_i32 l0 l1 l2 l3 : ℚ) / SCALE,
          longitude := (as_i32 m0 m1 m2 m3 : ℚ) / SCALE,
          name := rest.take nl,
          hmac := (rest.drop nl).take 16 } := by
  unfold Position.init
  rw [if_neg (by simp; omega)]
  simp only []
  rw [if_neg (by omega), if_neg (by omega)]

/-- Decoding the canonical field bytes of a valid `Position` followed by any
16-byte tag recovers the fields exactly, up to coordinates being replaced by
their scaled-rounded values, and stores the tag. -/
lemma Position.init_serialize_append (p : Position) (t : List Nat)
    (hh : p.header < 256) (hi : p.interval < 256) (hc : p.confidence < 256)
    (hs : p.satellites < 256) (hdev : p.device.length = 6) (hname : p.name.length ≤ 255)
    (ht : t.length = 16)
    (hlat1 : -2147483648 ≤ c_round (p.latitude * SCALE))
    (hlat2 : c_round (p.latitude * SCALE) < 2147483648)
    (hlon1 : -2147483648 ≤ c_round (p.longitude * SCALE))
    (hlon2 : c_round (p.longitude * SCALE) < 2147483648)
    (F : List Nat) (hF : p.serialize_fields = .ok F) :
    Position.init (F ++ t) = .ok
      { header := p.header, interval := p.interval, confidence := p.confidence,
        satellites := p.satellites, device := p.device,
        latitude := (c_round (p.latitude * SCALE) : ℚ) / SCALE,
        longitude := (c_round (p.longitude * SCALE) : ℚ) / SCALE,
        name := p.name, hmac := t } := by
  obtain ⟨d0, d1, d2, d3, d4, d5, hd⟩ := exists_six p.device hdev
  rw [Position.serialize_fields_ok p hname] at hF
  injection hF with hF'
  subst hF'
  rw [hd, Nat.mod_eq_of_lt hh, Nat.mod_eq_of_lt hi, Nat.mod_eq_of_lt hc,
    Nat.mod_eq_of_lt hs, Nat.mod_eq_of_lt (by omega : p.name.length < 256)]
  simp only [be_i32, List.cons_append, List.nil_append, List.append_assoc]
  rw [Position.init_cons _ _ _ _ _ _ _ _ _ _ _ _ _ _ _ _ _ _ _ _
    (by simp [ht])]
  rw [as_i32_be _ hlat1 hlat2, as_i32_be _ hlon1 hlon2]
  rw [List.take_left, List.drop_left]
  rw [show List.take 16 t = t from by rw [← ht, List.take_length]]

lemma Position.serialize_ok_none (mac : List Nat → List Nat → List Nat)
    (p : Position) (F : List Nat) (hF : p.serialize_fields = .ok F) :
    Position.serialize mac p none = .ok (p, F ++ List.replicate 16 0) := by
  unfold Position.serialize
  rw [hF]

lemma Position.serialize_ok_some (mac : List Nat → List Nat → List Nat)
    (p : Position) (k F : List Nat) (hF : p.serialize_fields = .ok F) :
    Position.serialize mac p (some k) =
      .ok ({ p with hmac := (mac k F).take 16 }, F ++ (mac k F).take 16) := by
  unfold Position.serialize
  rw [hF]

lemma Position.verify_ok_some (mac : List Nat → List Nat → List Nat)
    (p : Position) (k F : List Nat) (hF : p.serialize_fields = .ok F) :
    Position.verify mac p (some k) = .ok (decide ((mac k F).take 16 = p.hmac), p) := by
  unfold Position.verify
  rw [hF]

lemma Command.cmd_serialize_fields_ok (c : Command) (harg : c.arg.length ≤ 255) :
    c.serialize_fields = .ok ([c.header % 256, c.arg.length % 256] ++ c.arg) := by
  unfold Command.serialize_fields
  rw [if_neg (by omega)]

lemma Command.cmd_serialize_ok_none (mac : List Nat → List Nat → List Nat)
    (c : Command) (G : List Nat) (hG : c.serialize_fields = .ok G) :
    Command.serialize mac c none = .ok (c, G ++ List.replicate 16 0) := by
  unfold Command.serialize
  rw [hG]

lemma Command.cmd_serialize_ok_some (mac : List Nat → List Nat → List Nat)
    (c : Command) (k G : List Nat) (hG : c.serialize_fields = .ok G) :
    Command.serialize mac c (some k) =
      .ok ({ c with hmac := (mac k G).take 16 }, G ++ (mac k G).take 16) := by
  unfold Command.serialize
  rw [hG]

lemma Command.cmd_verify_ok_some (mac : List Nat → List Nat → List Nat)
    (c : Command) (k G : List Nat) (hG : c.serialize_fields = .ok G) :
    Command.verify mac c (some k) = .ok (decide ((mac k G).take 16 = c.hmac), c) := by
  unfold Command.verify
  rw [hG]

lemma Command.cmd_init_cons (b0 al : Nat) (rest : List Nat) (hr : 16 ≤ rest.length) :
    Command.init (b0 :: al :: rest) =
      .ok { header := b0, arg := rest.take al, hmac := (rest.drop al).take 16 } := by
  unfold Command.init
  rw [if_neg (by simp; omega)]

lemma Position.serialize_fields_err (p : Position) (hp : 255 < p.name.length) :
    p.serialize_fields = .error (.fieldError "name too long; max 255 bytes") := by
  unfold Position.serialize_fields
  rw [if_pos (by omega : p.name.length > 255)]

lemma Position.serialize_err (mac : List Nat → List Nat → List Nat)
    (p : Position) (key : Option (List Nat)) (e : Err)
    (hF : p.serialize_fields = .error e) :
    Position.serialize mac p key = .error e := by
  unfold Position.serialize
  rw [hF]

lemma Command.cmd_serialize_fields_err (c : Command) (hc : 255 < c.arg.length) :
    c.serialize_fields = .error (.fieldError "arg too long; max 255 bytes") := by
  unfold Command.serialize_fields
  rw [if_pos (by omega : c.arg.length > 255)]

lemma Command.cmd_serialize_err (mac : List Nat → List Nat → List Nat)
    (c : Command) (key : Option (List Nat)) (e : Err)
    (hG : c.serialize_fields = .error e) :
    Command.serialize mac c key = .error e := by
  unfold Command.serialize
  rw [hG]

lemma c_round_zero : c_round ((0 : ℚ) * SCALE) = 0 := by
  unfold c_round SCALE
  rw [if_neg (by norm_num)]
  norm_num

lemma Position.serialize_fields_default :
    Position.serialize_fields {} = .ok (List.replicate 19 0) := by
  rw [Position.serialize_fields_ok _ (by simp)]
  simp only []
  rw [c_round_zero]
  simp [be_i32, List.replicate]

lemma Command.cmd_serialize_fields_default :
    Command.serialize_fields {} = .ok [0, 0] := by
  rw [Command.cmd_serialize_fields_ok _ (by simp)]
  simp

lemma Position.serialize_fields_hmac (p : Position) (t : List Nat) :
    Position.serialize_fields { p with hmac := t } = Position.serialize_fields p := rfl

lemma Command.cmd_serialize_fields_hmac (c : Command) (u : List Nat) :
    Command.serialize_fields { c with hmac := u } = Command.serialize_fields c := rfl

lemma Position.serialize_snd_hmac (mac : List Nat → List Nat → List Nat)
    (p : Position) (t k : List Nat) :
    (Position.serialize mac { p with hmac := t } (some k)).map Prod.snd =
      (Position.serialize mac p (some k)).map Prod.snd := by
  unfold Position.serialize
  rw [Position.serialize_fields_hmac]

lemma Command.cmd_serialize_snd_hmac (mac : List Nat → List Nat → List Nat)
    (c : Command) (u k : List Nat) :
    (Command.serialize mac { c with hmac := u } (some k)).map Prod.snd =
      (Command.serialize mac c (some k)).map Prod.snd := by
  unfold Command.serialize
  rw [Command.cmd_serialize_fields_hmac]

lemma exists_nineteen (l : List Nat) (h : 19 ≤ l.length) :
    ∃ b0 b1 b2 b3 d0 d1 d2 d3 d4 d5 l0 l1 l2 l3 m0 m1 m2 m3 nl rest,
      l = b0 :: b1 :: b2 :: b3 :: d0 :: d1 :: d2 :: d3 :: d4 :: d5 ::
        l0 :: l1 :: l2 :: l3 :: m0 :: m1 :: m2 :: m3 :: nl :: rest := by
  rcases l with _ | ⟨b0, l⟩; · simp at h
  rcases l with _ | ⟨b1, l⟩; · simp at h
  rcases l with _ | ⟨b2, l⟩; · simp at h
  rcases l with _ | ⟨b3, l⟩; · simp at h
  rcases l with _ | ⟨d0, l⟩; · simp at h
  rcases l with _ | ⟨d1, l⟩; · simp at h
  rcases l with _ | ⟨d2, l⟩; · simp at h
  rcases l with _ | ⟨d3, l⟩; · simp at h
  rcases l with _ | ⟨d4, l⟩; · simp at h
  rcases l with _ | ⟨d5, l⟩; · simp at h
  rcases l with _ | ⟨l0, l⟩; · simp at h
  rcases l with _ | ⟨l1, l⟩; · simp at h
  rcases l with _ | ⟨l2, l⟩; · simp at h
  rcases l with _ | ⟨l3, l⟩; · simp at h
  rcases l with _ | ⟨m0, l⟩; · simp at h
  rcases l with _ | ⟨m1, l⟩; · simp at h
  rcases l with _ | ⟨m2, l⟩; · simp at h
  rcases l with _ | ⟨m3, l⟩; · simp at h
  rcases l with _ | ⟨nl, l⟩; · simp at h
  exact ⟨b0, b1, b2, b3, d0, d1, d2, d3, d4, d5, l0, l1, l2, l3, m0, m1, m2, m3, nl, l, rfl⟩

lemma Position.name_le_of_fields_ok (p : Position) (F : List Nat)
    (hF : p.serialize_fields = .ok F) : p.name.length ≤ 255 := by
  by_contra h
  rw [Position.serialize_fields_err p (by omega)] at hF
  cases hF

lemma Command.arg_le_of_fields_ok (c : Command) (G : List Nat)
    (hG : c.serialize_fields = .ok G) : c.arg.length ≤ 255 := by
  by_contra h
  rw [Command.cmd_serialize_fields_err c (by omega)] at hG
  cases hG

lemma Position.init_fields_append_ok (p : Position) (t F : List Nat)
    (hdev : p.device.length = 6) (ht : t.length = 16)
    (hF : p.serialize_fields = .ok F) :
    ∃ q, Position.init (F ++ t) = .ok q := by
  have hname := Position.name_le_of_fields_ok p F hF
  obtain ⟨d0, d1, d2, d3, d4, d5, hd⟩ := exists_six p.device hdev
  rw [Position.serialize_fields_ok p hname] at hF
  injection hF with hF'
  subst hF'
  rw [hd, Nat.mod_eq_of_lt (show p.name.length < 256 by omega)]
  simp only [be_i32, List.cons_append, List.nil_append, List.append_assoc]
  exact ⟨_, Position.init_cons _ _ _ _ _ _ _ _ _ _ _ _ _ _ _ _ _ _ _ _ (by simp [ht])⟩

lemma Command.cmd_init_fields_append_ok (c : Command) (t G : List Nat)
    (ht : t.length = 16) (hG : c.serialize_fields = .ok G) :
    ∃ d, Command.init (G ++ t) = .ok d := by
  have harg := Command.arg_le_of_fields_ok c G hG
  rw [Command.cmd_serialize_fields_ok c harg] at hG
  injection hG with hG'
  subst hG'
  simp only [List.cons_append, List.nil_append, List.append_assoc]
  exact ⟨_, Command.cmd_init_cons _ _ _ (by simp [ht])⟩

/-! ### Claim theorems -/

/-- C10: for every variant, `verify` called with a null (absent) key raises
an error rather than returning a boolean: the null key is rejected before
any HMAC computation, and no updated state is produced. -/
theorem C10_verify_null_key_rejected (mac : List Nat → List Nat → List Nat)
    (p : Position) (c : Command) :
    Position.verify mac p none = .error (.keyError "key is null") ∧
    Command.verify mac c none = .error (.keyError "key is null") :=
  ⟨rfl, rfl⟩

/-- C7: encoding a `Position` whose name exceeds 255 bytes fails with a
FieldError, and encoding a `Command` whose arg exceeds 255 bytes fails with
a FieldError, for any key argument; no output buffer is produced. -/
theorem C7_oversize_variable_field_rejected (mac : List Nat → List Nat → List Nat)
    (p : Position) (c : Command) (key key' : Option (List Nat))
    (hp : 255 < p.name.length) (hc : 255 < c.arg.length) :
    Position.serialize mac p key = .error (.fieldError "name too long; max 255 bytes") ∧
    Command.serialize mac c key' = .error (.fieldError "arg too long; max 255 bytes") :=
  ⟨Position.serialize_err mac p key _ (Position.serialize_fields_err p hp),
   Command.cmd_serialize_err mac c key' _ (Command.cmd_serialize_fields_err c hc)⟩

/-- C7 witness: a 256-byte name and a 256-byte arg are rejected. -/
theorem C7_oversize_variable_field_rejected_witness :
    (255 < (List.replicate 256 0).length ∧ 255 < (List.replicate 256 0).length) ∧
    (Position.serialize (fun _ _ => List.replicate 32 7)
        { name := List.replicate 256 0 } none =
      .error (.fieldError "name too long; max 255 bytes") ∧
    Command.serialize (fun _ _ => List.replicate 32 7)
        { arg := List.replicate 256 0 } none =
      .error (.fieldError "arg too long; max 255 bytes")) :=
  ⟨by constructor <;> (rw [List.length_replicate]; omega),
   C7_oversize_variable_field_rejected (fun _ _ => List.replicate 32 7)
     { name := List.replicate 256 0 } { arg := List.replicate 256 0 } none none
     (by rw [List.length_replicate]; omega) (by rw [List.length_replicate]; omega)⟩

/-- C8: for every variant and non-empty key, serialize-with-key mutates
exactly the stored 16-byte tag — which afterwards equals the 16 bytes
appended to the returned buffer — and leaves every other field unchanged
(the returned state is `{p with hmac := tag}`); `verify` mutates nothing:
it returns the receiver unchanged alongside the boolean. -/
theorem C8_sign_frame (mac : List Nat → List Nat → List Nat)
    (p : Position) (c : Command) (k : List Nat) (hk : k ≠ [])
    (F G : List Nat) (hF : p.serialize_fields = .ok F) (hG : c.serialize_fields = .ok G) :
    Position.serialize mac p (some k) =
      .ok ({ p with hmac := (mac k F).take 16 }, F ++ (mac k F).take 16) ∧
    Command.serialize mac c (some k) =
      .ok ({ c with hmac := (mac k G).take 16 }, G ++ (mac k G).take 16) ∧
    Position.verify mac p (some k) = .ok (decide ((mac k F).take 16 = p.hmac), p) ∧
    Command.verify mac c (some k) = .ok (decide ((mac k G).take 16 = c.hmac), c) :=
  ⟨Position.serialize_ok_some mac p k F hF, Command.cmd_serialize_ok_some mac c k G hG,
   Position.verify_ok_some mac p k F hF, Command.cmd_verify_ok_some mac c k G hG⟩

/-- C8 witness: frame property at a concrete position, command and key. -/
theorem C8_sign_frame_witness :
    (([1] : List Nat) ≠ [] ∧
      Position.serialize_fields {} = .ok (List.replicate 19 0) ∧
      Command.serialize_fields {} = .ok [0, 0]) ∧
    (Position.serialize (fun _ _ => List.replicate 32 7) {} (some [1]) =
        .ok ({ ({} : Position) with hmac := (List.replicate 32 7).take 16 },
          List.replicate 19 0 ++ (List.replicate 32 7).take 16) ∧
      Command.serialize (fun _ _ => List.replicate 32 7) {} (some [1]) =
        .ok ({ ({} : Command) with hmac := (List.replicate 32 7).take 16 },
          [0, 0] ++ (List.replicate 32 7).take 16) ∧
      Position.verify (fun _ _ => List.replicate 32 7) {} (some [1]) =
        .ok (decide ((List.replicate 32 7).take 16 = ({} : Position).hmac), {}) ∧
      Command.verify (fun _ _ => List.replicate 32 7) {} (some [1]) =
        .ok (decide ((List.replicate 32 7).take 16 = ({} : Command).hmac), {})) :=
  ⟨⟨by simp, Position.serialize_fields_default, Command.cmd_serialize_fields_default⟩,
   C8_sign_frame (fun _ _ => List.replicate 32 7) {} {} [1]
     (by simp) (List.replicate 19 0) [0, 0]
     Position.serialize_fields_default Command.cmd_serialize_fields_default⟩

/-- C6: the canonical field bytes never include the stored 16-byte tag: for
both variants they are unchanged under any replacement of the stored tag,
and consequently the signed output bytes (hence the appended tag) are a
function of the field values and the key alone, whatever the stored tag
held beforehand. -/
theorem C6_tag_excluded_from_signed_bytes (mac : List Nat → List Nat → List Nat)
    (p : Position) (c : Command) (t t' u u' k : List Nat) :
    Position.serialize_fields { p with hmac := t } =
      Position.serialize_fields { p with hmac := t' } ∧
    Command.serialize_fields { c with hmac := u } =
      Command.serialize_fields { c with hmac := u' } ∧
    (Position.serialize mac { p with hmac := t } (some k)).map Prod.snd =
      (Position.serialize mac { p with hmac := t' } (some k)).map Prod.snd ∧
    (Command.serialize mac { c with hmac := u } (some k)).map Prod.snd =
      (Command.serialize mac { c with hmac := u' } (some k)).map Prod.snd := by
  refine ⟨rfl, rfl, ?_, ?_⟩
  · rw [Position.serialize_snd_hmac mac p t k, Position.serialize_snd_hmac mac p t' k]
  · rw [Command.cmd_serialize_snd_hmac mac c u k, Command.cmd_serialize_snd_hmac mac c u' k]

/-- C5: for both variants, serialize without a key returns exactly the
canonical field bytes followed by sixteen `0x00` bytes (and leaves the
variant untouched), serialize with a key returns the canonical field bytes
followed by the 16-byte tag computed by signing, and a buffer serialized
without a key decodes successfully. -/
theorem C5_unauthenticated_serialize (mac : List Nat → List Nat → List Nat)
    (p : Position) (c : Command) (k F G : List Nat)
    (hdev : p.device.length = 6)
    (hF : p.serialize_fields = .ok F) (hG : c.serialize_fields = .ok G) :
    Position.serialize mac p none = .ok (p, F ++ List.replicate 16 0) ∧
    Command.serialize mac c none = .ok (c, G ++ List.replicate 16 0) ∧
    (Position.serialize mac p (some k)).map Prod.snd = .ok (F ++ (mac k F).take 16) ∧
    (Command.serialize mac c (some k)).map Prod.snd = .ok (G ++ (mac k G).take 16) ∧
    (∃ q, Position.init (F ++ List.replicate 16 0) = .ok q) ∧
    (∃ d, Command.init (G ++ List.replicate 16 0) = .ok d) := by
  refine ⟨Position.serialize_ok_none mac p F hF, Command.cmd_serialize_ok_none mac c G hG,
    ?_, ?_,
    Position.init_fields_append_ok p _ F hdev (by simp) hF,
    Command.cmd_init_fields_append_ok c _ G (by simp) hG⟩
  · rw [Position.serialize_ok_some mac p k F hF]
    rfl
  · rw [Command.cmd_serialize_ok_some mac c k G hG]
    rfl

/-- C5 witness: the default position and command, key `[1]`. -/
theorem C5_unauthenticated_serialize_witness :
    (({} : Position).device.length = 6 ∧
      Position.serialize_fields {} = .ok (List.replicate 19 0) ∧
      Command.serialize_fields {} = .ok [0, 0]) ∧
    (Position.serialize (fun _ _ => List.replicate 32 7) {} none =
        .ok ({}, List.replicate 19 0 ++ List.replicate 16 0) ∧
      Command.serialize (fun _ _ => List.replicate 32 7) {} none =
        .ok ({}, [0, 0] ++ List.replicate 16 0) ∧
      (Position.serialize (fun _ _ => List.replicate 32 7) {} (some [1])).map Prod.snd =
        .ok (List.replicate 19 0 ++ ((fun _ _ => List.replicate 32 7) [1] (List.replicate 19 0)).take 16) ∧
      (Command.serialize (fun _ _ => List.replicate 32 7) {} (some [1])).map Prod.snd =
        .ok ([0, 0] ++ ((fun _ _ => List.replicate 32 7) [1] [0, 0]).take 16) ∧
      (∃ q, Position.init (List.replicate 19 0 ++ List.replicate 16 0) = .ok q) ∧
      (∃ d, Command.init ([0, 0] ++ List.replicate 16 0) = .ok d)) :=
  ⟨⟨by simp, Position.serialize_fields_default, Command.cmd_serialize_fields_default⟩,
   C5_unauthenticated_serialize (fun _ _ => List.replicate 32 7) {} {} [1]
     (List.replicate 19 0) [0, 0] (by simp)
     Position.serialize_fields_default Command.cmd_serialize_fields_default⟩

/-- C3 counterexample: a buffer of 37 zero bytes matches the claimed layout
exactly — its length equals the claimed fixed fields
(header+interval+device+lat+lon+timestamp+namelen) plus the name length
declared at the claimed offset 20 (zero) plus the 16-byte tag — so the
claim's success condition holds, yet `Position.init` rejects it (the real
minimum fixed size is 35, with the name length at offset 18). -/
theorem C3_counterexample :
    Position.init (List.replicate 37 0) =
      .error (.formatError "extra or missing bytes after parsing hmac") ∧
    (List.replicate 37 0 : List Nat).length =
      1 + 1 + 6 + 4 + 4 + 4 + 1 + (List.replicate 37 0 : List Nat).getD 20 0 + 16 := by
  constructor
  · decide
  · decide

/-- C3 (amended): Position decode fails with a FormatError when the buffer
is below the minimum fixed-field size of 35 bytes (1+1+1+1+6+4+4+1+16:
header, interval, confidence, satellites, device, latitude, longitude, name
length, tag — there is no timestamp field), before the name length byte is
interpreted; fails with FormatError when the buffer is too short to hold
the name bytes declared at offset 18 plus the 16-byte tag; fails with
FormatError when bytes remain after the tag; and succeeds exactly when the
length matches the declared fields plus tag (19 + name length + 16). -/
theorem C3_position_decode_length_checks (data : List Nat) :
    (data.length < 35 →
      Position.init data = .error (.formatError "data too short for Position")) ∧
    (35 ≤ data.length → data.length < 19 + data.getD 18 0 + 16 →
      Position.init data = .error (.formatError "data too short for name length and hmac")) ∧
    (35 ≤ data.length → 19 + data.getD 18 0 + 16 < data.length →
      Position.init data = .error (.formatError "extra or missing bytes after parsing hmac")) ∧
    ((∃ q, Position.init data = .ok q) ↔ data.length = 19 + data.getD 18 0 + 16) := by
  by_cases h35 : data.length < 35
  · refine ⟨fun _ => ?_, fun h _ => absurd h (by omega), fun h _ => absurd h (by omega), ?_⟩
    · unfold Position.init
      rw [if_pos h35]
    · constructor
      · rintro ⟨q, hq⟩
        unfold Position.init at hq
        rw [if_pos h35] at hq
        cases hq
      · intro hlen
        omega
  · obtain ⟨b0, b1, b2, b3, d0, d1, d2, d3, d4, d5, l0, l1, l2, l3, m0, m1, m2, m3, nl, rest, hdata⟩ :=
      exists_nineteen data (by omega)
    subst hdata
    have hg : (b0 :: b1 :: b2 :: b3 :: d0 :: d1 :: d2 :: d3 :: d4 :: d5 ::
        l0 :: l1 :: l2 :: l3 :: m0 :: m1 :: m2 :: m3 :: nl :: rest).getD 18 0 = nl := rfl
    have hlen : (b0 :: b1 :: b2 :: b3 :: d0 :: d1 :: d2 :: d3 :: d4 :: d5 ::
        l0 :: l1 :: l2 :: l3 :: m0 :: m1 :: m2 :: m3 :: nl :: rest).length = 19 + rest.length := by
      simp
      omega
    have hinit : Position.init (b0 :: b1 :: b2 :: b3 :: d0 :: d1 :: d2 :: d3 :: d4 :: d5 ::
        l0 :: l1 :: l2 :: l3 :: m0 :: m1 :: m2 :: m3 :: nl :: rest) =
        (if rest.length < nl + 16 then
          .error (.formatError "data too short for name length and hmac")
        else if rest.length ≠ nl + 16 then
          .error (.formatError "extra or missing bytes after parsing hmac")
        else
          .ok { header := b0, interval := b1, confidence := b2, satellites := b3,
                device := [d0, d1, d2, d3, d4, d5],
                latitude := (as_i32 l0 l1 l2 l3 : ℚ) / SCALE,
                longitude := (as_i32 m0 m1 m2 m3 : ℚ) / SCALE,
                name := rest.take nl,
                hmac := (rest.drop nl).take 16 }) := by
      unfold Position.init
      rw [if_neg (by omega)]
    rw [hg, hlen, hinit]
    refine ⟨fun h => absurd h (by omega), fun _ h2 => ?_, fun _ h3 => ?_, ?_⟩
    · rw [if_pos (by omega)]
    · rw [if_neg (by omega), if_pos (by omega)]
    · constructor
      · rintro ⟨q, hq⟩
        by_cases hr1 : rest.length < nl + 16
        · rw [if_pos hr1] at hq
          cases hq
        · rw [if_neg hr1] at hq
          by_cases hr2 : rest.length ≠ nl + 16
          · rw [if_pos hr2] at hq
            cases hq
          · omega
      · intro hl
        exact ⟨_, by rw [if_neg (by omega), if_neg (by omega)]⟩

/-- C3 witness: a 36-byte buffer (one byte after the tag end for an empty
name) is rejected with the trailing-bytes FormatError. -/
theorem C3_position_decode_length_checks_witness :
    (35 ≤ (List.replicate 36 0 : List Nat).length ∧
      19 + (List.replicate 36 0 : List Nat).getD 18 0 + 16 <
        (List.replicate 36 0 : List Nat).length) ∧
    Position.init (List.replicate 36 0) =
      .error (.formatError "extra or missing bytes after parsing hmac") :=
  ⟨by decide,
   (C3_position_decode_length_checks (List.replicate 36 0)).2.2.1
     (by decide) (by decide)⟩

/-- C4 counterexample: the canonical field bytes of the default `Position`
(empty name) are 19 bytes, not the 21 bytes (offsets 0-20, with a 4-byte
timestamp at 16-19 and the name length at 20) that the claimed layout
requires before the name. -/
theorem C4_counterexample :
    Position.serialize_fields {} = .ok (List.replicate 19 0) ∧
    (List.replicate 19 0 : List Nat).length ≠ 1 + 1 + 6 + 4 + 4 + 4 + 1 :=
  ⟨Position.serialize_fields_default, by decide⟩

/-- C4 (amended): the canonical field bytes of a `Position` follow the wire
layout of the source: header at offset 0, interval at 1, confidence at 2,
satellites at 3, device id at 4-9, big-endian signed scaled latitude at
10-13, longitude at 14-17, and the name length byte at offset 18 followed
by the name bytes; there is no timestamp field.  Decode reads the same
layout back. -/
theorem C4_position_wire_layout (p : Position) (t F : List Nat)
    (hh : p.header < 256) (hi : p.interval < 256) (hc : p.confidence < 256)
    (hs : p.satellites < 256) (hdev : p.device.length = 6) (ht : t.length = 16)
    (hlat1 : -2147483648 ≤ c_round (p.latitude * SCALE))
    (hlat2 : c_round (p.latitude * SCALE) < 2147483648)
    (hlon1 : -2147483648 ≤ c_round (p.longitude * SCALE))
    (hlon2 : c_round (p.longitude * SCALE) < 2147483648)
    (hF : p.serialize_fields = .ok F) :
    F.length = 19 + p.name.length ∧
    F.getD 0 0 = p.header ∧ F.getD 1 0 = p.interval ∧
    F.getD 2 0 = p.confidence ∧ F.getD 3 0 = p.satellites ∧
    (F.drop 4).take 6 = p.device ∧
    (F.drop 10).take 4 = be_i32 (c_round (p.latitude * SCALE)) ∧
    (F.drop 14).take 4 = be_i32 (c_round (p.longitude * SCALE)) ∧
    F.getD 18 0 = p.name.length ∧
    F.drop 19 = p.name ∧
    Position.init (F ++ t) = .ok
      { header := p.header, interval := p.interval, confidence := p.confidence,
        satellites := p.satellites, device := p.device,
        latitude := (c_round (p.latitude * SCALE) : ℚ) / SCALE,
        longitude := (c_round (p.longitude * SCALE) : ℚ) / SCALE,
        name := p.name, hmac := t } := by
  have hname := Position.name_le_of_fields_ok p F hF
  obtain ⟨d0, d1, d2, d3, d4, d5, hd⟩ := exists_six p.device hdev
  have hF2 := Position.serialize_fields_ok p hname
  rw [hd, Nat.mod_eq_of_lt hh, Nat.mod_eq_of_lt hi, Nat.mod_eq_of_lt hc,
    Nat.mod_eq_of_lt hs, Nat.mod_eq_of_lt (show p.name.length < 256 by omega)] at hF2
  rw [hF] at hF2
  injection hF2 with hF2'
  subst hF2'
  have hinit := Position.init_serialize_append p t hh hi hc hs hdev hname ht
    hlat1 hlat2 hlon1 hlon2 _ hF
  rw [hd] at hinit ⊢
  simp only [be_i32, List.cons_append, List.nil_append, List.append_assoc] at hinit ⊢
  exact ⟨by simp; omega, rfl, rfl, rfl, rfl, rfl, rfl, rfl, rfl, rfl, hinit⟩

/-- C4 witness: the default position with an all-zero tag. -/
theorem C4_position_wire_layout_witness :
    (({} : Position).header < 256 ∧ ({} : Position).device.length = 6 ∧
      (List.replicate 16 0 : List Nat).length = 16 ∧
      Position.serialize_fields {} = .ok (List.replicate 19 0)) ∧
    (List.replicate 19 0 : List Nat).length = 19 + ({} : Position).name.length :=
  ⟨⟨by decide, by simp, by simp, Position.serialize_fields_default⟩,
   (C4_position_wire_layout {} (List.replicate 16 0) (List.replicate 19 0)
     (by decide) (by decide) (by decide) (by decide) (by simp) (by simp)
     (by rw [show c_round (({} : Position).latitude * SCALE) = 0 from c_round_zero]; omega)
     (by rw [show c_round (({} : Position).latitude * SCALE) = 0 from c_round_zero]; omega)
     (by rw [show c_round (({} : Position).longitude * SCALE) = 0 from c_round_zero]; omega)
     (by rw [show c_round (({} : Position).longitude * SCALE) = 0 from c_round_zero]; omega)
     Position.serialize_fields_default).1⟩

lemma Position.serialize_fields_roundtrip (p : Position) (t : List Nat) :
    ({ header := p.header, interval := p.interval, confidence := p.confidence,
       satellites := p.satellites, device := p.device,
       latitude := (c_round (p.latitude * SCALE) : ℚ) / SCALE,
       longitude := (c_round (p.longitude * SCALE) : ℚ) / SCALE,
       name := p.name, hmac := t } : Position).serialize_fields =
      p.serialize_fields := by
  have hr1 : c_round ((c_round (p.latitude * SCALE) : ℚ) / SCALE * SCALE) =
      c_round (p.latitude * SCALE) := by
    rw [div_mul_cancel₀ _ (by norm_num [SCALE] : (SCALE : ℚ) ≠ 0), c_round_intCast]
  have hr2 : c_round ((c_round (p.longitude * SCALE) : ℚ) / SCALE * SCALE) =
      c_round (p.longitude * SCALE) := by
    rw [div_mul_cancel₀ _ (by norm_num [SCALE] : (SCALE : ℚ) ≠ 0), c_round_intCast]
  unfold Position.serialize_fields
  dsimp only
  rw [hr1, hr2]

lemma Position.verify_hmac_tag (mac : List Nat → List Nat → List Nat)
    (p : Position) (k F : List Nat) (hF : p.serialize_fields = .ok F) :
    Position.verify mac { p with hmac := (mac k F).take 16 } (some k) =
      .ok (true, { p with hmac := (mac k F).take 16 }) := by
  rw [Position.verify_ok_some mac _ k F
    (by rw [Position.serialize_fields_hmac]; exact hF)]
  simp

lemma c_round_tiny : c_round ((3 / 20000000 : ℚ) * SCALE) = 2 := by
  unfold c_round SCALE
  rw [if_neg (by norm_num)]
  rw [show (3 / 20000000 : ℚ) * 10000000 + 1 / 2 = ((2 : ℤ) : ℚ) by norm_num]
  rw [Int.floor_intCast]

/-- C1 counterexample: a latitude strictly inside the valid degree range
but finer than the 1e-7 grid is changed by encode-then-decode: serializing
`latitude = 3/20000000` (1.5e-7 degrees) stores `round(1.5) = 2`, and
decoding returns `2e-7 ≠ 1.5e-7`, so the decoded fields do not equal the
original fields. -/
theorem C1_counterexample :
    (Position.serialize (fun _ _ => List.replicate 32 7)
        { latitude := 3 / 20000000 } (some [107])).map Prod.snd =
      .ok (List.replicate 13 0 ++ 2 :: List.replicate 5 0 ++ List.replicate 16 7) ∧
    (Position.init (List.replicate 13 0 ++ 2 :: List.replicate 5 0 ++
        List.replicate 16 7)).map Position.latitude = .ok (1 / 5000000 : ℚ) ∧
    (1 / 5000000 : ℚ) ≠ 3 / 20000000 ∧
    (-90 : ℚ) ≤ 3 / 20000000 ∧ (3 / 20000000 : ℚ) ≤ 90 ∧
    ({ latitude := 3 / 20000000 : Position }).name.length ≤ 255 ∧
    ([107] : List Nat) ≠ [] := by
  refine ⟨?_, ?_, by norm_num, by norm_num, by norm_num, by simp, by simp⟩
  · rw [Position.serialize_ok_some _ _ _ _
      (Position.serialize_fields_ok { latitude := 3 / 20000000 } (by simp))]
    rw [show c_round (({ latitude := 3 / 20000000 } : Position).latitude * SCALE) = 2
        from c_round_tiny,
      show c_round (({ latitude := 3 / 20000000 } : Position).longitude * SCALE) = 0
        from c_round_zero]
    simp only [Except.map]
    congr 1
  · rw [show (List.replicate 13 0 ++ 2 :: List.replicate 5 0 ++ List.replicate 16 7 : List Nat) =
        0 :: 0 :: 0 :: 0 :: 0 :: 0 :: 0 :: 0 :: 0 :: 0 :: 0 :: 0 :: 0 :: 2 ::
          0 :: 0 :: 0 :: 0 :: 0 :: List.replicate 16 7 by decide]
    rw [Position.init_cons 0 0 0 0 0 0 0 0 0 0 0 0 0 2 0 0 0 0 0 _ (by simp)]
    simp only [Except.map]
    congr 1
    rw [show as_i32 0 0 0 2 = 2 by decide]
    norm_num [SCALE]

/-- C1 (amended): for every `Position` whose fields are within domain
bounds (name at most 255 bytes, latitude/longitude within the valid degree
range) and additionally representable on the 1e-7 fixed-point grid (the
wire resolution), and every non-empty key, decoding the buffer produced by
serialize-with-key yields a `Position` whose fields equal the original
fields, and `verify` of the decoded `Position` with the same key returns
`true`. -/
theorem C1_sign_roundtrip_verify (mac : List Nat → List Nat → List Nat)
    (hm : ∀ k d, (mac k d).length = 32)
    (p : Position) (k : List Nat) (hk : k ≠ [])
    (hh : p.header < 256) (hi : p.interval < 256) (hc : p.confidence < 256)
    (hs : p.satellites < 256) (hdev : p.device.length = 6) (hname : p.name.length ≤ 255)
    (hlat : ∃ n : ℤ, p.latitude = (n : ℚ) / SCALE)
    (hlon : ∃ n : ℤ, p.longitude = (n : ℚ) / SCALE)
    (hlatr1 : -90 ≤ p.latitude) (hlatr2 : p.latitude ≤ 90)
    (hlonr1 : -180 ≤ p.longitude) (hlonr2 : p.longitude ≤ 180) :
    ∃ p1 buf q, Position.serialize mac p (some k) = .ok (p1, buf) ∧
      Position.init buf = .ok q ∧
      q.header = p.header ∧ q.interval = p.interval ∧ q.confidence = p.confidence ∧
      q.satellites = p.satellites ∧ q.device = p.device ∧
      q.latitude = p.latitude ∧ q.longitude = p.longitude ∧ q.name = p.name ∧
      Position.verify mac q (some k) = .ok (true, q) := by
  obtain ⟨n, hn⟩ := hlat
  obtain ⟨m, hmm⟩ := hlon
  have hS0 : (SCALE : ℚ) ≠ 0 := by norm_num [SCALE]
  have hSpos : (0 : ℚ) < SCALE := by norm_num [SCALE]
  have hlatc : c_round (p.latitude * SCALE) = n := by
    rw [hn, div_mul_cancel₀ _ hS0, c_round_intCast]
  have hlonc : c_round (p.longitude * SCALE) = m := by
    rw [hmm, div_mul_cancel₀ _ hS0, c_round_intCast]
  have hnlo : -900000000 ≤ n := by
    have h1 : ((-900000000 : ℤ) : ℚ) ≤ (n : ℚ) := by
      rw [show ((-900000000 : ℤ) : ℚ) = -90 * SCALE by norm_num [SCALE]]
      calc -90 * SCALE ≤ p.latitude * SCALE := by
            exact mul_le_mul_of_nonneg_right hlatr1 (le_of_lt hSpos)
        _ = (n : ℚ) := by rw [hn, div_mul_cancel₀ _ hS0]
    exact_mod_cast h1
  have hnhi : n ≤ 900000000 := by
    have h1 : (n : ℚ) ≤ ((900000000 : ℤ) : ℚ) := by
      rw [show ((900000000 : ℤ) : ℚ) = 90 * SCALE by norm_num [SCALE]]
      calc (n : ℚ) = p.latitude * SCALE := by rw [hn, div_mul_cancel₀ _ hS0]
        _ ≤ 90 * SCALE := mul_le_mul_of_nonneg_right hlatr2 (le_of_lt hSpos)
    exact_mod_cast h1
  have hmlo : -1800000000 ≤ m := by
    have h1 : ((-1800000000 : ℤ) : ℚ) ≤ (m : ℚ) := by
      rw [show ((-1800000000 : ℤ) : ℚ) = -180 * SCALE by norm_num [SCALE]]
      calc -180 * SCALE ≤ p.longitude * SCALE := by
            exact mul_le_mul_of_nonneg_right hlonr1 (le_of_lt hSpos)
        _ = (m : ℚ) := by rw [hmm, div_mul_cancel₀ _ hS0]
    exact_mod_cast h1
  have hmhi : m ≤ 1800000000 := by
    have h1 : (m : ℚ) ≤ ((1800000000 : ℤ) : ℚ) := by
      rw [show ((1800000000 : ℤ) : ℚ) = 180 * SCALE by norm_num [SCALE]]
      calc (m : ℚ) = p.longitude * SCALE := by rw [hmm, div_mul_cancel₀ _ hS0]
        _ ≤ 180 * SCALE := mul_le_mul_of_nonneg_right hlonr2 (le_of_lt hSpos)
    exact_mod_cast h1
  have hb1 : -2147483648 ≤ c_round (p.latitude * SCALE) := by rw [hlatc]; omega
  have hb2 : c_round (p.latitude * SCALE) < 2147483648 := by rw [hlatc]; omega
  have hb3 : -2147483648 ≤ c_round (p.longitude * SCALE) := by rw [hlonc]; omega
  have hb4 : c_round (p.longitude * SCALE) < 2147483648 := by rw [hlonc]; omega
  have hF := Position.serialize_fields_ok p hname
  have htag : ((mac k ([p.header % 256, p.interval % 256, p.confidence % 256,
      p.satellites % 256] ++ p.device ++ be_i32 (c_round (p.latitude * SCALE)) ++
      be_i32 (c_round (p.longitude * SCALE)) ++ [p.name.length % 256] ++ p.name)).take 16).length
      = 16 := by
    rw [List.length_take, hm]
    decide
  have hinit := Position.init_serialize_append p _ hh hi hc hs hdev hname htag
    hb1 hb2 hb3 hb4 _ hF
  have elat : (c_round (p.latitude * SCALE) : ℚ) / SCALE = p.latitude := by
    rw [hlatc]
    exact hn.symm
  have elon : (c_round (p.longitude * SCALE) : ℚ) / SCALE = p.longitude := by
    rw [hlonc]
    exact hmm.symm
  rw [elat, elon] at hinit
  refine ⟨_, _, _, Position.serialize_ok_some mac p k _ hF, hinit,
    rfl, rfl, rfl, rfl, rfl, rfl, rfl, rfl, ?_⟩
  exact Position.verify_hmac_tag mac p k _ hF

/-- C1 witness: the default position (all fields zero, empty name) with key
`[107]` and a constant 32-byte digest function. -/
theorem C1_sign_roundtrip_verify_witness :
    ((∀ k d : List Nat, ((fun (_ _ : List Nat) => List.replicate 32 7) k d).length = 32) ∧
      ([107] : List Nat) ≠ [] ∧ ({} : Position).header < 256 ∧
      ({} : Position).device.length = 6 ∧ ({} : Position).name.length ≤ 255 ∧
      (∃ n : ℤ, ({} : Position).latitude = (n : ℚ) / SCALE) ∧
      (-90 : ℚ) ≤ ({} : Position).latitude ∧ ({} : Position).latitude ≤ 90) ∧
    (∃ p1 buf q, Position.serialize (fun _ _ => List.replicate 32 7) {} (some [107]) =
        .ok (p1, buf) ∧
      Position.init buf = .ok q ∧
      q.header = ({} : Position).header ∧ q.interval = ({} : Position).interval ∧
      q.confidence = ({} : Position).confidence ∧
      q.satellites = ({} : Position).satellites ∧ q.device = ({} : Position).device ∧
      q.latitude = ({} : Position).latitude ∧ q.longitude = ({} : Position).longitude ∧
      q.name = ({} : Position).name ∧
      Position.verify (fun _ _ => List.replicate 32 7) q (some [107]) = .ok (true, q)) :=
  ⟨⟨fun _ _ => rfl, by simp, by decide, by simp, by simp,
    ⟨0, by norm_num⟩, by norm_num, by norm_num⟩,
   C1_sign_roundtrip_verify (fun _ _ => List.replicate 32 7) (fun _ _ => rfl)
     {} [107] (by simp) (by decide) (by decide) (by decide) (by decide) (by simp)
     (by simp) ⟨0, by norm_num⟩ ⟨0, by norm_num⟩
     (by norm_num) (by norm_num) (by norm_num) (by norm_num)⟩

/-- C9: encode-decode-encode is idempotent for `Position`: for every
`Position` with name at most 255 bytes (and scaled-rounded coordinates
representable in 32 bits, as the int32 cast requires), the canonical field
bytes of the re-encoded decode of an encoding equal the canonical field
bytes of the original encoding — the second rounding of
`decoded_int / 1e7` times `1e7` recovers the same 32-bit integer. -/
theorem C9_encode_decode_encode_idempotent (mac : List Nat → List Nat → List Nat)
    (hm : ∀ k d, (mac k d).length = 32)
    (p : Position) (k : List Nat)
    (hh : p.header < 256) (hi : p.interval < 256) (hc : p.confidence < 256)
    (hs : p.satellites < 256) (hdev : p.device.length = 6) (hname : p.name.length ≤ 255)
    (hb1 : -2147483648 ≤ c_round (p.latitude * SCALE))
    (hb2 : c_round (p.latitude * SCALE) < 2147483648)
    (hb3 : -2147483648 ≤ c_round (p.longitude * SCALE))
    (hb4 : c_round (p.longitude * SCALE) < 2147483648) :
    ∃ p1 buf q F, Position.serialize mac p (some k) = .ok (p1, buf) ∧
      Position.init buf = .ok q ∧
      p.serialize_fields = .ok F ∧ q.serialize_fields = .ok F := by
  have hF := Position.serialize_fields_ok p hname
  have htag : ((mac k ([p.header % 256, p.interval % 256, p.confidence % 256,
      p.satellites % 256] ++ p.device ++ be_i32 (c_round (p.latitude * SCALE)) ++
      be_i32 (c_round (p.longitude * SCALE)) ++ [p.name.length % 256] ++ p.name)).take 16).length
      = 16 := by
    rw [List.length_take, hm]
    decide
  have hinit := Position.init_serialize_append p _ hh hi hc hs hdev hname htag
    hb1 hb2 hb3 hb4 _ hF
  refine ⟨_, _, _, _, Position.serialize_ok_some mac p k _ hF, hinit, hF, ?_⟩
  rw [Position.serialize_fields_roundtrip]
  exact hF

/-- C9 witness: the default position, key `[107]`, constant digest. -/
theorem C9_encode_decode_encode_idempotent_witness :
    ((∀ k d : List Nat, ((fun (_ _ : List Nat) => List.replicate 32 7) k d).length = 32) ∧
      ({} : Position).header < 256 ∧ ({} : Position).device.length = 6 ∧
      ({} : Position).name.length ≤ 255 ∧
      -2147483648 ≤ c_round (({} : Position).latitude * SCALE) ∧
      c_round (({} : Position).latitude * SCALE) < 2147483648) ∧
    (∃ p1 buf q F, Position.serialize (fun _ _ => List.replicate 32 7) {} (some [107]) =
        .ok (p1, buf) ∧
      Position.init buf = .ok q ∧
      Position.serialize_fields {} = .ok F ∧ q.serialize_fields = .ok F) :=
  ⟨⟨fun _ _ => rfl, by decide, by simp, by simp,
    by rw [show c_round (({} : Position).latitude * SCALE) = 0 from c_round_zero]; omega,
    by rw [show c_round (({} : Position).latitude * SCALE) = 0 from c_round_zero]; omega⟩,
   C9_encode_decode_encode_idempotent (fun _ _ => List.replicate 32 7) (fun _ _ => rfl)
     {} [107] (by decide) (by decide) (by decide) (by decide) (by simp) (by simp)
     (by rw [show c_round (({} : Position).latitude * SCALE) = 0 from c_round_zero]; omega)
     (by rw [show c_round (({} : Position).latitude * SCALE) = 0 from c_round_zero]; omega)
     (by rw [show c_round (({} : Position).longitude * SCALE) = 0 from c_round_zero]; omega)
     (by rw [show c_round (({} : Position).longitude * SCALE) = 0 from c_round_zero]; omega)⟩

/-- C2 (code bug): `Command::init` accepts a 19-byte buffer with one
trailing byte after the 16-byte tag and returns a parsed `Command` — the
trailing-bytes and declared-length-overrun throws in the source are
commented out and replaced by `printf`.  Only the 18-byte minimum check
still fails. -/
theorem C2_command_init_trailing_bytes_accepted :
    Command.init (128 :: 0 :: List.replicate 17 0) =
      .ok { header := 128, arg := [], hmac := List.replicate 16 0 } ∧
    (128 :: 0 :: List.replicate 17 0 : List Nat).length = 19 ∧
    Command.init (List.replicate 17 0) =
      .error (.formatError "data too short for Command") := by
  decide

end Messages
